import Mathlib

/-!
Verification of the tender-intake service against its specification.

The JavaScript sources are shallowly embedded: JSON values become the
inductive type `Json`, JS objects become association lists in insertion
order, fallible code returns `Except`, and the host regex engine / LLM
backend are passed in as explicit function parameters (oracles), so that
every theorem quantifies over their behaviour.
-/

set_option maxHeartbeats 1000000

namespace TenderIntake

/-- JSON values as produced by `JSON.parse`.  JS `undefined` is modelled
separately as `Option Json` (`none` = absent/undefined) where the code
distinguishes it. Objects are association lists in insertion order. -/
inductive Json where
  | str : String → Json
  | num : Int → Json
  | bool : Bool → Json
  | null : Json
  | arr : List Json → Json
  | obj : List (String × Json) → Json
deriving Repr

/-- First-match association-list lookup, i.e. JS property access `o[k]`
(`none` = the property is absent, JS `undefined`). -/
def lookupField {α : Type} (kvs : List (String × α)) (k : String) : Option α :=
  match kvs with
  | [] => none
  | (k', v) :: rest => if k' = k then some v else lookupField rest k

/-- The sentinel string `NOT_SPECIFIED` of the extraction service. -/
def NOT_SPECIFIED : String := "Not specified in the document."

/-- JS `v && typeof v === "object" && !Array.isArray(v)`. -/
def isObject : Json → Bool
  | .obj _ => true
  | _ => false

mutual

/-- Source `deepMergeIntoTemplate(template, candidate)`:
for an array template take the candidate if it is an array, else keep the
template; for a primitive template take the candidate unless it is
`null`/`undefined`; for an object template rebuild exactly the template's
keys, merging each against the candidate's value for that key
(extra candidate keys are dropped, candidate non-objects count as `{}`). -/
def deepMergeIntoTemplate : Json → Option Json → Json
  | .arr ts, c =>
    match c with
    | some (.arr cs) => .arr cs
    | _ => .arr ts
  | .obj tkvs, c =>
    let cand := match c with
      | some (.obj ckvs) => ckvs
      | _ => []
    .obj (mergeFields tkvs cand)
  | t, c =>
    match c with
    | none => t
    | some .null => t
    | some v => v

/-- The `for (const key of Object.keys(template))` loop of
`deepMergeIntoTemplate`: one output entry per template entry. -/
def mergeFields : List (String × Json) → List (String × Json) → List (String × Json)
  | [], _ => []
  | (k, tv) :: rest, cand =>
    (k, deepMergeIntoTemplate tv (lookupField cand k)) :: mergeFields rest cand

end

/-- JS `String.prototype.trim`: strip leading and trailing whitespace
(modelled over the character list so it is kernel-computable). -/
def jsTrim (s : String) : String :=
  ⟨((s.data.dropWhile Char.isWhitespace).reverse.dropWhile Char.isWhitespace).reverse⟩

/-- JS `typeof node === "string" && node.trim() === ""`. -/
def isBlankString (s : String) : Bool := jsTrim s = ""

mutual

/-- Source `normalizeTenderJson`: walk the whole structure replacing
`null`/`undefined` and whitespace-only strings by the sentinel. -/
def normalizeTenderJson : Json → Json
  | .arr xs => .arr (normalizeJsonList xs)
  | .obj kvs => .obj (normalizeJsonFields kvs)
  | .null => .str NOT_SPECIFIED
  | .str s => if isBlankString s then .str NOT_SPECIFIED else .str s
  | .num n => .num n
  | .bool b => .bool b

def normalizeJsonList : List Json → List Json
  | [] => []
  | x :: xs => normalizeTenderJson x :: normalizeJsonList xs

def normalizeJsonFields : List (String × Json) → List (String × Json)
  | [] => []
  | (k, v) :: kvs => (k, normalizeTenderJson v) :: normalizeJsonFields kvs

end

/-- The enforcement pipeline of the Schema Enforcer as named by the spec:
template deep-merge followed by the sentinel normalization pass. -/
def enforce (template : Json) (candidate : Json) : Json :=
  normalizeTenderJson (deepMergeIntoTemplate template (some candidate))

mutual

/-- Predicate `keysMatchTemplate t out = true` iff at every object level of the template
`t`, `out` is an object with exactly the template's keys in the template's
order, recursively through the template's object values.  Positions where the
template holds an array or a primitive are unconstrained. -/
def keysMatchTemplate : Json → Json → Bool
  | .obj tkvs, out =>
    match out with
    | .obj okvs => fieldsMatchTemplate tkvs okvs
    | _ => false
  | _, _ => true

def fieldsMatchTemplate : List (String × Json) → List (String × Json) → Bool
  | [], [] => true
  | (tk, tv) :: trest, (ok, ov) :: orest =>
    tk = ok && keysMatchTemplate tv ov && fieldsMatchTemplate trest orest
  | _, _ => false

end

mutual

/-- All object keys appearing anywhere in a JSON value, at any depth,
including inside arrays. -/
def keysAnywhere : Json → List String
  | .arr xs => keysAnywhereList xs
  | .obj kvs => keysAnywhereFields kvs
  | _ => []

def keysAnywhereList : List Json → List String
  | [] => []
  | x :: xs => keysAnywhere x ++ keysAnywhereList xs

def keysAnywhereFields : List (String × Json) → List String
  | [] => []
  | (k, v) :: kvs => k :: (keysAnywhere v ++ keysAnywhereFields kvs)

end

mutual

theorem merge_keysMatch_aux (t : Json) (c : Option Json) :
    keysMatchTemplate t (deepMergeIntoTemplate t c) = true := by
  match t with
  | .str s => cases c with
    | none => rfl
    | some v => cases v <;> rfl
  | .num n => cases c with
    | none => rfl
    | some v => cases v <;> rfl
  | .bool b => cases c with
    | none => rfl
    | some v => cases v <;> rfl
  | .null => cases c with
    | none => rfl
    | some v => cases v <;> rfl
  | .arr ts =>
    cases c with
    | none => rfl
    | some v => cases v <;> rfl
  | .obj tkvs =>
    show keysMatchTemplate (.obj tkvs) (.obj (mergeFields tkvs _)) = true
    exact mergeFields_keysMatch_aux tkvs _

theorem mergeFields_keysMatch_aux (tkvs cand : List (String × Json)) :
    fieldsMatchTemplate tkvs (mergeFields tkvs cand) = true := by
  match tkvs with
  | [] => rfl
  | (k, tv) :: rest =>
    show fieldsMatchTemplate ((k, tv) :: rest)
      ((k, deepMergeIntoTemplate tv (lookupField cand k)) :: mergeFields rest cand) = true
    simp only [fieldsMatchTemplate, Bool.and_eq_true, decide_eq_true_eq]
    exact ⟨⟨trivial, merge_keysMatch_aux tv (lookupField cand k)⟩, mergeFields_keysMatch_aux rest cand⟩

end

/-- C1 (counterexample): the claim as stated is false.  With template
`{a: []}` and candidate `{a: [{x: 1}]}`, `deepMergeIntoTemplate` adopts the
candidate's array wholesale, so the key `x` — absent from the template —
appears in the output. -/
theorem C1_counterexample_extra_key_inside_array :
    "x" ∈ keysAnywhere (deepMergeIntoTemplate (.obj [("a", .arr [])])
        (some (.obj [("a", .arr [.obj [("x", .num 1)]])]))) ∧
    "x" ∉ keysAnywhere (Json.obj [("a", Json.arr [])]) := by
  decide

/-- C1 (amended): for every template and candidate, at every object level of
the template — recursively through the template's object values — the output
of `deepMergeIntoTemplate` is an object with exactly the template's key set.
Keys inside arrays adopted from the candidate, and keys inside candidate
values taken where the template holds a primitive, are not constrained. -/
theorem C1_merge_matches_template_object_keys (template : Json) (candidate : Option Json) :
    keysMatchTemplate template (deepMergeIntoTemplate template candidate) = true :=
  merge_keysMatch_aux template candidate

/-- Predicate `keyNodup ks = true` iff the list of keys has no duplicates
(JS objects always satisfy this). -/
def keyNodup : List String → Bool
  | [] => true
  | k :: ks => (!ks.contains k) && keyNodup ks

mutual

/-- No duplicate keys at any object level reached through object values
(array elements are adopted wholesale by the merge, so they need no
constraint).  Every object produced by `JSON.parse` satisfies this. -/
def objKeysNodup : Json → Bool
  | .obj kvs => keyNodup (kvs.map Prod.fst) && objFieldsNodup kvs
  | _ => true

def objFieldsNodup : List (String × Json) → Bool
  | [] => true
  | (_, v) :: rest => objKeysNodup v && objFieldsNodup rest

end

theorem normalize_ne_null (j : Json) : normalizeTenderJson j ≠ .null := by
  cases j with
  | str s =>
    simp only [normalizeTenderJson]
    split <;> simp
  | num n => simp [normalizeTenderJson]
  | bool b => simp [normalizeTenderJson]
  | null => simp [normalizeTenderJson]
  | arr xs => simp [normalizeTenderJson]
  | obj kvs => simp [normalizeTenderJson]

mutual

theorem normalize_idem (j : Json) :
    normalizeTenderJson (normalizeTenderJson j) = normalizeTenderJson j := by
  match j with
  | .null =>
    simp only [normalizeTenderJson]
    rw [if_neg]
    simp [isBlankString, jsTrim, NOT_SPECIFIED]
  | .str s =>
    by_cases h : isBlankString s = true
    · simp only [normalizeTenderJson, h, if_true]
      rw [if_neg]
      simp [isBlankString, jsTrim, NOT_SPECIFIED]
    · simp only [Bool.not_eq_true] at h
      simp only [normalizeTenderJson, h, if_false, Bool.false_eq_true]
  | .num n => rfl
  | .bool b => rfl
  | .arr xs =>
    simp only [normalizeTenderJson]
    rw [normalizeList_idem xs]
  | .obj kvs =>
    simp only [normalizeTenderJson]
    rw [normalizeFields_idem kvs]

theorem normalizeList_idem (xs : List Json) :
    normalizeJsonList (normalizeJsonList xs) = normalizeJsonList xs := by
  match xs with
  | [] => rfl
  | x :: rest =>
    simp only [normalizeJsonList]
    rw [normalize_idem x, normalizeList_idem rest]

theorem normalizeFields_idem (kvs : List (String × Json)) :
    normalizeJsonFields (normalizeJsonFields kvs) = normalizeJsonFields kvs := by
  match kvs with
  | [] => rfl
  | (k, v) :: rest =>
    simp only [normalizeJsonFields]
    rw [normalize_idem v, normalizeFields_idem rest]

end

/-- Lemma: `mergeFields` only consults the candidate through lookups of the
template's own keys. -/
theorem mergeFields_ext (tkvs : List (String × Json)) (c1 c2 : List (String × Json))
    (h : ∀ k, k ∈ tkvs.map Prod.fst → lookupField c1 k = lookupField c2 k) :
    mergeFields tkvs c1 = mergeFields tkvs c2 := by
  induction tkvs with
  | nil => rfl
  | cons kv rest ih =>
    obtain ⟨k, tv⟩ := kv
    simp only [mergeFields]
    rw [h k (by simp), ih (fun k' hk' => h k' (by simp [hk']))]

theorem lookupField_cons_self (k : String) (v : Json) (rest : List (String × Json)) :
    lookupField ((k, v) :: rest) k = some v := by
  simp [lookupField]

theorem lookupField_cons_ne (k k' : String) (v : Json) (rest : List (String × Json))
    (h : k ≠ k') : lookupField ((k, v) :: rest) k' = lookupField rest k' := by
  simp [lookupField, h]

mutual

/-- Key absorption lemma: re-merging the normalized merge output into the
same (duplicate-key-free) template is the identity. -/
theorem merge_absorb (t : Json) (c : Option Json) (h : objKeysNodup t = true) :
    deepMergeIntoTemplate t (some (normalizeTenderJson (deepMergeIntoTemplate t c)))
      = normalizeTenderJson (deepMergeIntoTemplate t c) := by
  match t with
  | .str s =>
    have hz := normalize_ne_null (deepMergeIntoTemplate (.str s) c)
    cases hnz : normalizeTenderJson (deepMergeIntoTemplate (.str s) c) <;>
      simp_all [deepMergeIntoTemplate]
  | .num n =>
    have hz := normalize_ne_null (deepMergeIntoTemplate (.num n) c)
    cases hnz : normalizeTenderJson (deepMergeIntoTemplate (.num n) c) <;>
      simp_all [deepMergeIntoTemplate]
  | .bool b =>
    have hz := normalize_ne_null (deepMergeIntoTemplate (.bool b) c)
    cases hnz : normalizeTenderJson (deepMergeIntoTemplate (.bool b) c) <;>
      simp_all [deepMergeIntoTemplate]
  | .null =>
    have hz := normalize_ne_null (deepMergeIntoTemplate .null c)
    cases hnz : normalizeTenderJson (deepMergeIntoTemplate .null c) <;>
      simp_all [deepMergeIntoTemplate]
  | .arr ts =>
    cases hc : deepMergeIntoTemplate (.arr ts) c with
    | arr zs => simp [hc, normalizeTenderJson, deepMergeIntoTemplate]
    | str s => exact absurd hc (by cases c with
        | none => simp [deepMergeIntoTemplate]
        | some v => cases v <;> simp [deepMergeIntoTemplate])
    | num n => exact absurd hc (by cases c with
        | none => simp [deepMergeIntoTemplate]
        | some v => cases v <;> simp [deepMergeIntoTemplate])
    | bool b => exact absurd hc (by cases c with
        | none => simp [deepMergeIntoTemplate]
        | some v => cases v <;> simp [deepMergeIntoTemplate])
    | null => exact absurd hc (by cases c with
        | none => simp [deepMergeIntoTemplate]
        | some v => cases v <;> simp [deepMergeIntoTemplate])
    | obj kvs => exact absurd hc (by cases c with
        | none => simp [deepMergeIntoTemplate]
        | some v => cases v <;> simp [deepMergeIntoTemplate])
  | .obj tkvs =>
    simp only [objKeysNodup, Bool.and_eq_true] at h
    show Json.obj (mergeFields tkvs _) = _
    have := mergeFields_absorb tkvs
      (match c with | some (.obj ckvs) => ckvs | _ => [])
      h.1 h.2
    simp only [deepMergeIntoTemplate, normalizeTenderJson]
    rw [this]

theorem mergeFields_absorb (tkvs cand : List (String × Json))
    (h1 : keyNodup (tkvs.map Prod.fst) = true) (h2 : objFieldsNodup tkvs = true) :
    mergeFields tkvs (normalizeJsonFields (mergeFields tkvs cand))
      = normalizeJsonFields (mergeFields tkvs cand) := by
  match tkvs with
  | [] => rfl
  | (k, tv) :: rest =>
    simp only [List.map_cons, keyNodup, Bool.and_eq_true] at h1
    have hk : k ∉ rest.map Prod.fst := by
      have := h1.1
      simp only [Bool.not_eq_true'] at this
      simpa using this
    simp only [objFieldsNodup, Bool.and_eq_true] at h2
    simp only [mergeFields, normalizeJsonFields]
    rw [lookupField_cons_self]
    rw [merge_absorb tv (lookupField cand k) h2.1]
    rw [mergeFields_ext rest
      ((k, normalizeTenderJson (deepMergeIntoTemplate tv (lookupField cand k)))
        :: normalizeJsonFields (mergeFields rest cand))
      (normalizeJsonFields (mergeFields rest cand))
      (fun k' hk' => lookupField_cons_ne k k' _ _ (fun he => hk (he ▸ hk')))]
    rw [mergeFields_absorb rest cand h1.2 h2.2]

end

/-- The canonical tender template (`getTenderTemplate`): the authoritative
shape for the extraction endpoint, every leaf a sentinel, `0`, or a fixed
string/array. -/
def getTenderTemplate : Json :=
  .obj [("tenderOverview", .obj [
    ("header", .obj [
      ("title", .str "Tender Evaluation Framework"),
      ("subtitle", .str NOT_SPECIFIED)]),
    ("overview", .obj [
      ("evaluationWeighting", .obj [
        ("title", .str "Evaluation Weighting"),
        ("description", .str NOT_SPECIFIED),
        ("data", .arr [])]),
      ("keyRequirements", .obj [
        ("title", .str "Key Requirements"),
        ("description", .str NOT_SPECIFIED),
        ("requirements", .arr [
          .obj [("label", .str "Project Duration"), ("value", .str NOT_SPECIFIED)],
          .obj [("label", .str "Minimum Company Experience"), ("value", .str NOT_SPECIFIED)],
          .obj [("label", .str "Named Users"), ("value", .str NOT_SPECIFIED)],
          .obj [("label", .str "Licenses"), ("value", .str NOT_SPECIFIED)]])]),
      ("evaluationScoringSystem", .obj [
        ("title", .str "Evaluation Scoring System"),
        ("description", .str NOT_SPECIFIED),
        ("financialScoring", .obj [
          ("title", .str "Financial Scoring"),
          ("rules", .arr [.str NOT_SPECIFIED])]),
        ("technicalScoring", .obj [
          ("title", .str "Technical Scoring"),
          ("rules", .arr [.str NOT_SPECIFIED])])])]),
    ("financial", .obj [
      ("title", .str "Financial Evaluation Criteria"),
      ("weight", .num 0),
      ("weightUnit", .str "percentage"),
      ("evaluationFactors", .arr [
        .obj [("order", .num 1), ("title", .str NOT_SPECIFIED), ("description", .str NOT_SPECIFIED)]]),
      ("disqualificationTriggers", .arr [.str NOT_SPECIFIED])]),
    ("technical", .obj [
      ("title", .str "Technical Evaluation Criteria"),
      ("weight", .num 0),
      ("weightUnit", .str "percentage"),
      ("scoringScale", .str NOT_SPECIFIED),
      ("technicalCriteria", .arr [
        .obj [("category", .str NOT_SPECIFIED), ("weight", .num 0)]]),
      ("psdRequirements", .arr [.str NOT_SPECIFIED]),
      ("disqualificationTriggers", .arr [.str NOT_SPECIFIED])]),
    ("compliance", .obj [
      ("title", .str "Mandatory Compliance Requirements"),
      ("description", .str "Pass/Fail - Non-Negotiable"),
      ("generalSubmissionCompliance", .arr [.str NOT_SPECIFIED]),
      ("technicalComplianceRequirements", .arr [.str NOT_SPECIFIED]),
      ("technicalComplianceNote", .str NOT_SPECIFIED),
      ("teamComplianceRequirements", .arr [
        .obj [("title", .str NOT_SPECIFIED), ("description", .str NOT_SPECIFIED)]]),
      ("oracleLicensingCompliance", .obj [
        ("note", .str NOT_SPECIFIED)])]),
    ("support", .obj [
      ("title", .str "Support & Service Level Agreements"),
      ("description", .str "Operational requirements and SLAs"),
      ("supportAvailability", .obj [
        ("systemAvailabilityRequirement", .num 0),
        ("supportHours", .arr [
          .obj [("type", .str "Regular"), ("schedule", .str NOT_SPECIFIED)]])]),
      ("incidentResponseTimes", .arr [
        .obj [("priority", .str NOT_SPECIFIED), ("responseTime", .str NOT_SPECIFIED)]]),
      ("severityLevels", .arr [
        .obj [("level", .num 1), ("description", .str NOT_SPECIFIED)]]),
      ("backupAndDisasterRecovery", .arr [
        .obj [("type", .str NOT_SPECIFIED), ("period", .str NOT_SPECIFIED)]]),
      ("reliabilityRequirement", .str NOT_SPECIFIED)])])]

/-- Idempotence of the enforcement pipeline for any template without
duplicate keys. -/
theorem enforce_idem_of_nodup (template : Json) (h : objKeysNodup template = true)
    (x : Json) : enforce template (enforce template x) = enforce template x := by
  unfold enforce
  rw [merge_absorb template (some x) h, normalize_idem]

theorem tenderTemplate_nodup : objKeysNodup getTenderTemplate = true := by decide

/-- C7: the Schema Enforcer is idempotent: for every candidate `x`,
applying the pipeline (template deep-merge then sentinel normalization,
with the service's fixed tender template) to its own output equals
applying it once. -/
theorem C7_enforce_idempotent (x : Json) :
    enforce getTenderTemplate (enforce getTenderTemplate x)
      = enforce getTenderTemplate x :=
  enforce_idem_of_nodup getTenderTemplate tenderTemplate_nodup x

/-! ### Strict shape validation and the validate/repair loop
(`validateShapeStrict` and the attempt loop of `extractRfpEvaluation`). -/

/-- JS `Array.prototype.join(sep)`. -/
def joinSep (sep : String) : List String → String
  | [] => ""
  | [x] => x
  | x :: y :: rest => x ++ sep ++ joinSep sep (y :: rest)

/-- Insert a field into a key-sorted field list (helper for `sortFields`). -/
def insertField (p : String × Json) : List (String × Json) → List (String × Json)
  | [] => [p]
  | q :: rest => if p.1 ≤ q.1 then p :: q :: rest else q :: insertField p rest

/-- JS `Object.keys(o).sort()` paired with the corresponding values:
the fields sorted by key (stable; JS objects have unique keys). -/
def sortFields : List (String × Json) → List (String × Json)
  | [] => []
  | p :: rest => insertField p (sortFields rest)

theorem insertField_perm (p : String × Json) (l : List (String × Json)) :
    (insertField p l).Perm (p :: l) := by
  induction l with
  | nil => exact List.Perm.refl _
  | cons q rest ih =>
    simp only [insertField]
    split
    · exact List.Perm.refl _
    · exact (List.Perm.cons q ih).trans (List.Perm.swap p q rest)

theorem sortFields_perm (l : List (String × Json)) : (sortFields l).Perm l := by
  induction l with
  | nil => exact List.Perm.refl _
  | cons p rest ih =>
    exact (insertField_perm p (sortFields rest)).trans (List.Perm.cons p ih)

theorem sortFields_sizeOf (l : List (String × Json)) :
    sizeOf (sortFields l) = sizeOf l :=
  (sortFields_perm l).sizeOf_eq_sizeOf

mutual

/-- The recursive `walk` of `validateShapeStrict`: collect structural
mismatches of `out` against template `tpl`.  Missing properties read as
JS `undefined`; `undefined` and `null` behave identically in every branch
of the walk, so an absent field is read back as `Json.null`. -/
def validateWalk (out tpl : Json) (path : String) : List String :=
  match tpl with
  | .arr ts =>
    match out with
    | .arr os =>
      match ts with
      | [] => []
      | t0 :: _ => validateArrayElems os t0 path 0
    | _ => [path ++ ": expected array"]
  | .obj tkvs =>
    match out with
    | .obj okvs =>
      let tplKeys := (sortFields tkvs).map Prod.fst
      let outKeys := (sortFields okvs).map Prod.fst
      if joinSep "|" tplKeys ≠ joinSep "|" outKeys then
        [path ++ ": keys mismatch. expected=[" ++ joinSep ", " tplKeys ++
          "], got=[" ++ joinSep ", " outKeys ++ "]"]
      else
        validateObjFields (sortFields tkvs) okvs path
    | _ => [path ++ ": expected object"]
  | _ => []
termination_by (sizeOf tpl, 0)
decreasing_by
  · apply Prod.Lex.left
    simp_arith
  · apply Prod.Lex.left
    rw [sortFields_sizeOf]
    simp_arith

def validateArrayElems (os : List Json) (t0 : Json) (path : String) (i : Nat) :
    List String :=
  match os with
  | [] => []
  | o :: rest =>
    validateWalk o t0 (path ++ "[" ++ toString i ++ "]")
      ++ validateArrayElems rest t0 path (i + 1)
termination_by (sizeOf t0, sizeOf os)
decreasing_by
  · apply Prod.Lex.right
    simp_arith
  · apply Prod.Lex.right
    simp_arith

def validateObjFields (tkvs : List (String × Json)) (okvs : List (String × Json))
    (path : String) : List String :=
  match tkvs with
  | [] => []
  | (k, tv) :: rest =>
    validateWalk ((lookupField okvs k).getD .null) tv
        (if path = "" then k else path ++ "." ++ k)
      ++ validateObjFields rest okvs path
termination_by (sizeOf tkvs, 0)
decreasing_by
  · apply Prod.Lex.left
    simp_arith
  · apply Prod.Lex.left
    simp_arith

end

/-- Source `validateShapeStrict(outputObj, templateObj)`: `(ok, errors)`. -/
def validateShapeStrict (outputObj templateObj : Json) : Bool × List String :=
  let errors := validateWalk outputObj templateObj ""
  (errors.isEmpty, errors)

/-- Outcome of the validate/repair `for` loop of `extractRfpEvaluation`:
its result, how many shape validations ran, and how many LLM repair
re-queries were made. -/
structure LoopOutcome where
  result : Except String Json
  validations : Nat
  repairsMade : Nat
deriving Repr

/-- The `for (let attempt = 0; attempt < 3; attempt++)` validate/repair loop
of `extractRfpEvaluation`.  `repairs n` is the (parsed) result of the n-th
LLM repair re-query; `.error` models a repair whose output failed JSON
parsing (`Failed to repair JSON`). -/
def validateRepairLoop (template : Json) (repairs : Nat → Except String Json)
    (outputObj : Json) (attempt : Nat) : LoopOutcome :=
  let shape := validateShapeStrict outputObj template
  if shape.1 then ⟨.ok outputObj, 1, 0⟩
  else if attempt < 2 then
    match repairs attempt with
    | .error e => ⟨.error ("Failed to repair JSON: " ++ e), 1, 0⟩
    | .ok next =>
      let rest := validateRepairLoop template repairs next (attempt + 1)
      ⟨rest.result, rest.validations + 1, rest.repairsMade + 1⟩
  else
    ⟨.error ("Failed to produce schema-valid JSON after 3 attempts. Errors: "
        ++ joinSep " | " (shape.2.take 3)), 1, 0⟩
termination_by 2 - attempt

/-- The loop as entered by `extractRfpEvaluation` (attempt counter 0). -/
def extractRfpEvaluationLoop (template : Json) (repairs : Nat → Except String Json)
    (outputObj : Json) : LoopOutcome :=
  validateRepairLoop template repairs outputObj 0

theorem validateRepairLoop_ok (t : Json) (r : Nat → Except String Json) (o : Json)
    (a : Nat) (h : (validateShapeStrict o t).1 = true) :
    validateRepairLoop t r o a = ⟨.ok o, 1, 0⟩ := by
  rw [validateRepairLoop]
  simp [h]

theorem validateRepairLoop_repairFail (t : Json) (r : Nat → Except String Json)
    (o : Json) (a : Nat) (h : (validateShapeStrict o t).1 = false) (ha : a < 2)
    (e : String) (he : r a = .error e) :
    validateRepairLoop t r o a = ⟨.error ("Failed to repair JSON: " ++ e), 1, 0⟩ := by
  rw [validateRepairLoop]
  simp [h, ha, he]

theorem validateRepairLoop_step (t : Json) (r : Nat → Except String Json)
    (o : Json) (a : Nat) (h : (validateShapeStrict o t).1 = false) (ha : a < 2)
    (j : Json) (hj : r a = .ok j) :
    validateRepairLoop t r o a =
      ⟨(validateRepairLoop t r j (a + 1)).result,
       (validateRepairLoop t r j (a + 1)).validations + 1,
       (validateRepairLoop t r j (a + 1)).repairsMade + 1⟩ := by
  rw [validateRepairLoop]
  simp [h, ha, hj]

theorem validateRepairLoop_exhaust (t : Json) (r : Nat → Except String Json)
    (o : Json) (a : Nat) (h : (validateShapeStrict o t).1 = false) (ha : ¬ a < 2) :
    validateRepairLoop t r o a =
      ⟨.error ("Failed to produce schema-valid JSON after 3 attempts. Errors: "
          ++ joinSep " | " ((validateShapeStrict o t).2.take 3)), 1, 0⟩ := by
  rw [validateRepairLoop]
  simp [h, ha]

/-- C5: in `extractRfpEvaluation`, the parsed output is shape-validated at
most 3 times; every failed validation except the last triggers exactly one
repair re-query (repairs = validations - 1 on every path); a returned result
is always shape-valid; and if the initial output and both repairs are still
shape-invalid, the loop throws an error naming the first up-to-3 structural
mismatches of the last candidate instead of returning a result. -/
theorem C5_validate_repair_loop (template : Json) (repairs : Nat → Except String Json)
    (init : Json) :
    (extractRfpEvaluationLoop template repairs init).validations ≤ 3 ∧
    (extractRfpEvaluationLoop template repairs init).repairsMade + 1
      = (extractRfpEvaluationLoop template repairs init).validations ∧
    (∀ j, (extractRfpEvaluationLoop template repairs init).result = Except.ok j →
      (validateShapeStrict j template).1 = true) ∧
    ((validateShapeStrict init template).1 = false →
      ∀ j0 j1, repairs 0 = .ok j0 → repairs 1 = .ok j1 →
      (validateShapeStrict j0 template).1 = false →
      (validateShapeStrict j1 template).1 = false →
      (extractRfpEvaluationLoop template repairs init).result
        = .error ("Failed to produce schema-valid JSON after 3 attempts. Errors: "
            ++ joinSep " | " ((validateShapeStrict j1 template).2.take 3)) ∧
      (extractRfpEvaluationLoop template repairs init).validations = 3) := by
  unfold extractRfpEvaluationLoop
  by_cases h0 : (validateShapeStrict init template).1 = true
  · rw [validateRepairLoop_ok template repairs init 0 h0]
    dsimp only
    refine ⟨by omega, by omega, ?_, by simp [h0]⟩
    intro j hj
    cases hj
    exact h0
  · simp only [Bool.not_eq_true] at h0
    cases hr0 : repairs 0 with
    | error e =>
      rw [validateRepairLoop_repairFail template repairs init 0 h0 (by omega) e hr0]
      dsimp only
      refine ⟨by omega, by omega, by simp, ?_⟩
      intro _ j0 j1 hj0 _ _ _
      exact Except.noConfusion hj0
    | ok j0 =>
      rw [validateRepairLoop_step template repairs init 0 h0 (by omega) j0 hr0]
      dsimp only
      by_cases h1 : (validateShapeStrict j0 template).1 = true
      · rw [validateRepairLoop_ok template repairs j0 1 h1]
        dsimp only
        refine ⟨by omega, by omega, ?_, ?_⟩
        · intro j hj
          cases hj
          exact h1
        · intro _ j0' _ hj0' _ hbad _
          injection hj0' with hpe
          subst hpe
          exact absurd h1 (by simp [hbad])
      · simp only [Bool.not_eq_true] at h1
        cases hr1 : repairs 1 with
        | error e =>
          rw [validateRepairLoop_repairFail template repairs j0 1 h1 (by omega) e hr1]
          dsimp only
          refine ⟨by omega, by omega, by simp, ?_⟩
          intro _ j0' j1 hj0' hj1 _ _
          exact Except.noConfusion hj1
        | ok j1 =>
          rw [validateRepairLoop_step template repairs j0 1 h1 (by omega) j1 hr1]
          dsimp only
          by_cases h2 : (validateShapeStrict j1 template).1 = true
          · rw [validateRepairLoop_ok template repairs j1 2 h2]
            dsimp only
            refine ⟨by omega, by omega, ?_, ?_⟩
            · intro j hj
              cases hj
              exact h2
            · intro _ j0' j1' hj0' hj1' _ hbad
              injection hj1' with hpe
              subst hpe
              exact absurd h2 (by simp [hbad])
          · simp only [Bool.not_eq_true] at h2
            rw [validateRepairLoop_exhaust template repairs j1 2 h2 (by omega)]
            dsimp only
            refine ⟨by omega, by omega, by simp, ?_⟩
            intro _ j0' j1' hj0' hj1' _ _
            injection hj1' with hpe
            subst hpe
            exact ⟨rfl, rfl⟩

theorem C5_validate_repair_loop_witness :
    (extractRfpEvaluationLoop (Json.obj [("a", Json.null)])
        (fun _ => .ok (Json.arr [])) Json.null).result
      = .error ("Failed to produce schema-valid JSON after 3 attempts. Errors: "
          ++ joinSep " | " ((validateShapeStrict (Json.arr [])
              (Json.obj [("a", Json.null)])).2.take 3)) ∧
    (extractRfpEvaluationLoop (Json.obj [("a", Json.null)])
        (fun _ => .ok (Json.arr [])) Json.null).validations = 3 :=
  (C5_validate_repair_loop (Json.obj [("a", Json.null)])
      (fun _ => .ok (Json.arr [])) Json.null).2.2.2
    (by simp [validateShapeStrict, validateWalk])
    (Json.arr []) (Json.arr []) rfl rfl
    (by simp [validateShapeStrict, validateWalk])
    (by simp [validateShapeStrict, validateWalk])

/-! ### Weight Normalizer (`normalizeWeights`). -/

/-- JS `Math.round`: round half towards positive infinity. -/
def jsRound (q : ℚ) : ℤ := ⌊q + 1 / 2⌋

/-- The financial/technical block of `normalizeWeights`:
if the pair sums to a positive total more than 1 away from 100, rescale each
to `Math.round(w / total * 100)`; if the total is 0, apply the fixed default
split (financial 30, technical 70); otherwise leave the pair unchanged. -/
def normalizeWeightsFinTech (financialWeight technicalWeight : ℤ) : ℤ × ℤ :=
  let totalWeight := financialWeight + technicalWeight
  if totalWeight > 0 ∧ |totalWeight - 100| > 1 then
    (jsRound ((financialWeight : ℚ) / (totalWeight : ℚ) * 100),
     jsRound ((technicalWeight : ℚ) / (totalWeight : ℚ) * 100))
  else if totalWeight = 0 then (30, 70)
  else (financialWeight, technicalWeight)

/-- The `evaluationWeighting.data` / `technicalCriteria` blocks of
`normalizeWeights`: for a non-empty group whose sum is positive and more than
1 away from 100, rescale each value to `Math.round(v / sum * 100)`; in every
other case (including a zero sum) the group is left unchanged — no default
split is applied to these groups. -/
def normalizeWeightsGroup (values : List ℤ) : List ℤ :=
  if values.length > 0 then
    let sum : ℤ := values.foldl (· + ·) 0
    if sum > 0 ∧ |sum - 100| > 1 then
      values.map (fun v => jsRound ((v : ℚ) / (sum : ℚ) * 100))
    else values
  else values

theorem jsRound_pair_sum (x y : ℚ) (h : x + y = 100) :
    jsRound x + jsRound y = 100 ∨ jsRound x + jsRound y = 101 := by
  have hy : y + 1 / 2 = ((101 : ℤ) : ℚ) + (-(x + 1 / 2)) := by push_cast; linarith
  unfold jsRound
  rw [hy, Int.floor_int_add, Int.floor_neg]
  have h1 := Int.ceil_le_floor_add_one (x + 1 / 2)
  have h2 := Int.floor_le_ceil (x + 1 / 2)
  omega

/-- C6 (counterexample): the claim as stated is false.  The pair
(99, 101) has positive sum 200, is rescaled to (50, 51)
(`Math.round(49.5) = 50`, `Math.round(50.5) = 51`), and 50 + 51 = 101 ≠ 100:
the returned values do not sum to exactly 100. -/
theorem C6_counterexample_rounded_sum_101 :
    normalizeWeightsFinTech 99 101 = (50, 51) ∧ (50 : ℤ) + 51 ≠ 100 := by
  constructor
  · rw [normalizeWeightsFinTech]
    norm_num [jsRound]
  · decide

/-- C6 (amended): for the financial/technical pair with positive sum more
than 1 away from 100, each value is rescaled to `round(w / sum * 100)`
(proportions preserved within rounding) and the results sum to 100 or 101
(not always exactly 100); a positive sum within ±1 of 100 leaves the pair
unchanged; a zero sum gets the fixed default split (30, 70).  For
`evaluationWeighting.data` / `technicalCriteria` groups, a positive sum more
than 1 away from 100 rescales each value to `round(v / sum * 100)`, and any
other sum (including 0 — no default split for these groups) leaves the
values unchanged. -/
theorem C6_weight_normalizer (f te : ℤ) (vs : List ℤ) :
    (f + te > 0 → |f + te - 100| > 1 →
      normalizeWeightsFinTech f te
        = (jsRound ((f : ℚ) / ((f + te : ℤ) : ℚ) * 100),
           jsRound ((te : ℚ) / ((f + te : ℤ) : ℚ) * 100)) ∧
      ((normalizeWeightsFinTech f te).1 + (normalizeWeightsFinTech f te).2 = 100 ∨
       (normalizeWeightsFinTech f te).1 + (normalizeWeightsFinTech f te).2 = 101)) ∧
    (f + te > 0 → |f + te - 100| ≤ 1 → normalizeWeightsFinTech f te = (f, te)) ∧
    (f + te = 0 → normalizeWeightsFinTech f te = (30, 70)) ∧
    (vs.foldl (· + ·) 0 > 0 → |vs.foldl (· + ·) 0 - 100| > 1 →
      normalizeWeightsGroup vs
        = vs.map (fun v => jsRound ((v : ℚ) / ((vs.foldl (· + ·) 0 : ℤ) : ℚ) * 100))) ∧
    (vs.foldl (· + ·) 0 ≤ 0 ∨ |vs.foldl (· + ·) 0 - 100| ≤ 1 →
      normalizeWeightsGroup vs = vs) := by
  refine ⟨?_, ?_, ?_, ?_, ?_⟩
  · intro hpos hband
    have heq : normalizeWeightsFinTech f te
        = (jsRound ((f : ℚ) / ((f + te : ℤ) : ℚ) * 100),
           jsRound ((te : ℚ) / ((f + te : ℤ) : ℚ) * 100)) := by
      rw [normalizeWeightsFinTech]
      simp only [hpos, hband, and_self, if_true]
    refine ⟨heq, ?_⟩
    rw [heq]
    apply jsRound_pair_sum
    have ht : ((f + te : ℤ) : ℚ) ≠ 0 := by
      exact_mod_cast (by omega : (f + te : ℤ) ≠ 0)
    push_cast at ht ⊢
    field_simp
    ring
  · intro hpos hband
    rw [normalizeWeightsFinTech]
    simp only [show ¬(f + te > 0 ∧ |f + te - 100| > 1) by omega, if_false,
      show ¬(f + te = 0) by omega, if_false]
  · intro hzero
    rw [normalizeWeightsFinTech]
    rw [if_neg (by omega : ¬(f + te > 0 ∧ |f + te - 100| > 1))]
    rw [if_pos hzero]
  · intro hpos hband
    have hne : vs.length > 0 := by
      cases vs with
      | nil => simp at hpos
      | cons a l => simp
    rw [normalizeWeightsGroup, if_pos hne]
    dsimp only
    rw [if_pos ⟨hpos, hband⟩]
  · intro hcase
    have hnot : ¬(vs.foldl (· + ·) 0 > 0 ∧ |vs.foldl (· + ·) 0 - 100| > 1) := by omega
    rw [normalizeWeightsGroup]
    by_cases hlen : vs.length > 0
    · rw [if_pos hlen]
      dsimp only
      rw [if_neg hnot]
    · rw [if_neg hlen]

theorem C6_weight_normalizer_witness :
    normalizeWeightsFinTech 99 101
      = (jsRound ((99 : ℚ) / ((99 + 101 : ℤ) : ℚ) * 100),
         jsRound ((101 : ℚ) / ((99 + 101 : ℤ) : ℚ) * 100)) ∧
    normalizeWeightsFinTech 50 50 = (50, 50) ∧
    normalizeWeightsFinTech 0 0 = (30, 70) ∧
    normalizeWeightsGroup [10, 30]
      = [10, 30].map (fun v => jsRound ((v : ℚ) / (((10 + 30 : ℤ) : ℤ) : ℚ) * 100)) ∧
    normalizeWeightsGroup [0, 0] = [0, 0] :=
  ⟨((C6_weight_normalizer 99 101 []).1 (by norm_num) (by norm_num)).1,
   (C6_weight_normalizer 50 50 []).2.1 (by norm_num) (by norm_num),
   (C6_weight_normalizer 0 0 []).2.2.1 (by norm_num),
   by
     have := (C6_weight_normalizer 0 0 [10, 30]).2.2.2.1 (by norm_num) (by norm_num)
     simpa using this,
   (C6_weight_normalizer 0 0 [0, 0]).2.2.2.2 (by norm_num)⟩

/-! ### Section Splitter (`splitIntoSections` and `norm` of textUtils.js). -/

/-- JS `s.replace(/\s+/g, " ")`: collapse every whitespace run to one
space (the Boolean tracks whether the previous character was whitespace). -/
def collapseWsAux : List Char → Bool → List Char
  | [], _ => []
  | c :: rest, prevWs =>
    if c.isWhitespace then
      if prevWs then collapseWsAux rest true else ' ' :: collapseWsAux rest true
    else c :: collapseWsAux rest false

/-- Source `norm(s)`: `(s || "").replace(/\s+/g, " ").trim()`. -/
def norm (s : String) : String := jsTrim ⟨collapseWsAux s.data false⟩

/-- JS `text.slice(start, stop)` (character indices). -/
def jsSlice (s : String) (start stop : Nat) : String := ⟨(s.data.take stop).drop start⟩

/-- JS object assignment `sections[name] = value`: overwrite the existing
entry in place, else append (later duplicate headings overwrite earlier
content — last-match-wins). -/
def insertSection (sections : List (String × String)) (k v : String) :
    List (String × String) :=
  match sections with
  | [] => [(k, v)]
  | (k', v') :: rest =>
    if k' = k then (k, v) :: rest else (k', v') :: insertSection rest k v

/-- The `for (let i = 0; ...)` loop of `splitIntoSections`: each match
produces `sections[norm(m[i][1])] = text.slice(start, end).trim()`, where
`end` is the next match's index, or the text length for the last match. -/
def buildSections (text : String) (acc : List (String × String)) :
    List (Nat × String) → List (String × String)
  | [] => acc
  | (start, cap) :: rest =>
    let stop := match rest with
      | (next, _) :: _ => next
      | [] => text.data.length
    buildSections text (insertSection acc (norm cap) (jsTrim (jsSlice text start stop))) rest

/-- Source `splitIntoSections(text)`.  Here `findHeaders text` stands for
`[...text.matchAll(headerRegex)]` as `(index, captured heading)` pairs — the
host regex engine over the escaped `SECTION_HEADERS` alternation is treated
as an oracle parameter.  If no heading matched, return `{FULL: text}`; else
build the sections and finally set `sections.FULL = text`. -/
def splitIntoSections (findHeaders : String → List (Nat × String)) (text : String) :
    List (String × String) :=
  match findHeaders text with
  | [] => [("FULL", text)]
  | ms => insertSection (buildSections text [] ms) "FULL" text

theorem lookupField_insertSection (l : List (String × String)) (k v : String) :
    lookupField (insertSection l k v) k = some v := by
  induction l with
  | nil => simp [insertSection, lookupField]
  | cons kv rest ih =>
    obtain ⟨k', v'⟩ := kv
    by_cases h : k' = k
    · simp [insertSection, h, lookupField]
    · simp [insertSection, h, lookupField, ih]

/-- C4: if no recognized heading matches, `splitIntoSections` returns
exactly the one-entry map `{FULL: text}` with the unmodified input; and for
every input, the returned map contains `FULL` mapped to the complete
original text. -/
theorem C4_splitIntoSections (findHeaders : String → List (Nat × String)) (text : String) :
    (findHeaders text = [] → splitIntoSections findHeaders text = [("FULL", text)]) ∧
    lookupField (splitIntoSections findHeaders text) "FULL" = some text := by
  constructor
  · intro h
    rw [splitIntoSections, h]
  · rw [splitIntoSections]
    cases hm : findHeaders text with
    | nil => simp [lookupField]
    | cons m ms => exact lookupField_insertSection _ "FULL" text

theorem C4_splitIntoSections_witness :
    splitIntoSections (fun _ => []) "full document text" = [("FULL", "full document text")] ∧
    lookupField (splitIntoSections (fun _ => [(0, "Introduction")]) "Introduction\nbody")
        "FULL" = some "Introduction\nbody" :=
  ⟨(C4_splitIntoSections (fun _ => []) "full document text").1 rfl,
   (C4_splitIntoSections (fun _ => [(0, "Introduction")]) "Introduction\nbody").2⟩

/-! ### LLM Gateway (`callOllama` of aiService.js). -/

/-- Observable outcome of one `callOllama` invocation: the returned value
(`none` = JS `null`), the backoff sleeps performed (in ms, in order), and
how many fetch attempts were made. -/
structure CallOutcome where
  result : Option String
  backoffs : List Nat
  attemptsMade : Nat
deriving Repr, DecidableEq

/-- The `for (attempt = 0; attempt < maxRetries; attempt++)` body of
`callOllama`.  `attempts i` is the outcome of the i-th fetch:
`.error ()` models any thrown transport/HTTP/parse failure, `.ok r` models a
successful round trip returning `data.response?.trim() || null`.  On a
failure at `attempt === maxRetries - 1` the function returns `null`;
otherwise it sleeps `1000 * (attempt + 1)` ms and retries.  Falling out of
the loop also returns `null`. -/
def callOllamaGo (maxRetries : Nat) (attempts : Nat → Except Unit (Option String))
    (i : Nat) : CallOutcome :=
  if i < maxRetries then
    match attempts i with
    | .ok r => ⟨r, [], 1⟩
    | .error _ =>
      if i = maxRetries - 1 then ⟨none, [], 1⟩
      else
        let rest := callOllamaGo maxRetries attempts (i + 1)
        ⟨rest.result, 1000 * (i + 1) :: rest.backoffs, rest.attemptsMade + 1⟩
  else ⟨none, [], 0⟩
termination_by maxRetries - i

/-- Source `callOllama(prompt, maxRetries)`: short-circuit to `null` when the
`OLLAMA_ENABLED` feature flag is off, else run the retry loop. -/
def callOllama (enabled : Bool) (maxRetries : Nat)
    (attempts : Nat → Except Unit (Option String)) : CallOutcome :=
  if !enabled then ⟨none, [], 0⟩ else callOllamaGo maxRetries attempts 0

theorem callOllamaGo_all_error (maxRetries : Nat)
    (attempts : Nat → Except Unit (Option String))
    (h : ∀ j, j < maxRetries → attempts j = .error ()) (i : Nat) :
    callOllamaGo maxRetries attempts i =
      ⟨none, (List.range (maxRetries - 1 - i)).map (fun j => 1000 * (i + j + 1)),
       maxRetries - i⟩ := by
  by_cases hi : i < maxRetries
  · rw [callOllamaGo, if_pos hi, h i hi]
    by_cases hlast : i = maxRetries - 1
    · simp only [hlast, if_true]
      have h1 : maxRetries - 1 - (maxRetries - 1) = 0 := by omega
      have h2 : maxRetries - (maxRetries - 1) = 1 := by omega
      rw [h1, h2]
      simp
    · simp only [hlast, if_false]
      rw [callOllamaGo_all_error maxRetries attempts h (i + 1)]
      have hrange : maxRetries - 1 - i = (maxRetries - 1 - (i + 1)) + 1 := by omega
      have hmade : maxRetries - (i + 1) + 1 = maxRetries - i := by omega
      rw [hrange, List.range_succ_eq_map, hmade]
      simp only [List.map_cons, List.map_map]
      rw [show 1000 * (i + 0 + 1) = 1000 * (i + 1) by omega]
      rw [List.map_congr_left
        (fun a _ => by simp only [Function.comp_apply]; omega :
          ∀ a ∈ List.range (maxRetries - 1 - (i + 1)),
            ((fun j => 1000 * (i + j + 1)) ∘ Nat.succ) a
              = (fun j => 1000 * (i + 1 + j + 1)) a)]
  · rw [callOllamaGo, if_neg hi]
    have h1 : maxRetries - 1 - i = 0 := by omega
    have h2 : maxRetries - i = 0 := by omega
    rw [h1, h2]
    simp
termination_by maxRetries - i

theorem callOllamaGo_attempts_le (maxRetries : Nat)
    (attempts : Nat → Except Unit (Option String)) (i : Nat) :
    (callOllamaGo maxRetries attempts i).attemptsMade ≤ maxRetries - i := by
  by_cases hi : i < maxRetries
  · rw [callOllamaGo, if_pos hi]
    cases attempts i with
    | ok r => simpa using (by omega : 1 ≤ maxRetries - i)
    | error e =>
      by_cases hlast : i = maxRetries - 1
      · simp only [hlast, if_true]
        simpa using (by omega : 1 ≤ maxRetries - (maxRetries - 1))
      · simp only [hlast, if_false]
        have := callOllamaGo_attempts_le maxRetries attempts (i + 1)
        omega
  · rw [callOllamaGo, if_neg hi]
    simp
termination_by maxRetries - i

/-- C8: `callOllama` never throws — it is a total function into an
`Option` result.  When the feature flag is off it returns `null` with no
fetch attempt and no sleep; when every attempt fails it makes exactly
`maxRetries` attempts with linearly increasing backoffs
`1000·1, 1000·2, …, 1000·(maxRetries-1)` between them and returns `null`;
and on every input it makes at most `maxRetries` fetch attempts. -/
theorem C8_callOllama (enabled : Bool) (maxRetries : Nat)
    (attempts : Nat → Except Unit (Option String)) :
    (enabled = false →
      callOllama enabled maxRetries attempts = ⟨none, [], 0⟩) ∧
    (enabled = true → (∀ j, j < maxRetries → attempts j = .error ()) →
      callOllama enabled maxRetries attempts =
        ⟨none, (List.range (maxRetries - 1)).map (fun j => 1000 * (j + 1)), maxRetries⟩) ∧
    (callOllama enabled maxRetries attempts).attemptsMade ≤ maxRetries := by
  refine ⟨?_, ?_, ?_⟩
  · intro h
    rw [callOllama, h]
    rfl
  · intro he hall
    rw [callOllama, he]
    simp only [Bool.not_true, Bool.false_eq_true, if_false]
    rw [callOllamaGo_all_error maxRetries attempts hall 0]
    simp
  · rw [callOllama]
    by_cases he : enabled
    · simp only [he, Bool.not_true, Bool.false_eq_true, if_false]
      have := callOllamaGo_attempts_le maxRetries attempts 0
      omega
    · simp only [Bool.not_eq_true] at he
      rw [he]
      simp

theorem C8_callOllama_witness :
    callOllama false 2 (fun _ => .error ()) = ⟨none, [], 0⟩ ∧
    callOllama true 3 (fun _ => .error ()) =
      ⟨none, (List.range (3 - 1)).map (fun j => 1000 * (j + 1)), 3⟩ ∧
    (callOllama true 2 (fun _ => .ok (some "ok"))).attemptsMade ≤ 2 :=
  ⟨(C8_callOllama false 2 (fun _ => .error ())).1 rfl,
   (C8_callOllama true 3 (fun _ => .error ())).2.1 rfl (fun _ _ => rfl),
   (C8_callOllama true 2 (fun _ => .ok (some "ok"))).2.2⟩

/-! ### Gap Evaluator (`analyze` of part_007, constants.js, textUtils.js).

Regex testing (`new RegExp(p, "i").test(text)`) is the host engine's
primitive; it is passed in as the oracle `rxTest : pattern → text → Bool`,
so every theorem below holds for every possible matcher behaviour. -/

/-- The `NI` sentinel of constants.js. -/
def NI : String := "Not identifiable from the document."

/-- The closed `GAP_CATEGORIES` enumeration of constants.js. -/
def GAP_CATEGORIES : List String :=
  ["Administrative", "Technical", "Financial", "Support/SLA", "Compliance",
   "Governance", "Risk Management", "Integration", "KPI & Performance"]

/-- Source `initCategories()`: an accumulator with exactly the nine category keys,
each mapped to an empty list. -/
def initCategories : List (String × List String) :=
  GAP_CATEGORIES.map (fun k => (k, []))

/-- A keyword rule as produced by `buildRulesFromKeywords` /
`loadKeywordsFromExcel`; `whereSections` embeds the rule's `where` field
(`where` is reserved in Lean).  The Excel loader accepts any non-empty
`category` string, so `category` is an arbitrary string here. -/
structure Rule where
  name : String
  category : String
  whereSections : List String
  presence : List String
  quality_requires : List String
  unclear_triggers : List String
  outdated_triggers : List String
  required : Bool
deriving DecidableEq

/-- JS `String.prototype.toLowerCase` (character-wise). -/
def jsToLower (s : String) : String := ⟨s.data.map Char.toLower⟩

/-- Source `inText(text, patterns)`: some pattern matches. -/
def inText (rxTest : String → String → Bool) (text : String)
    (patterns : List String) : Bool :=
  patterns.any (fun p => rxTest p text)

/-- Source `missingTerms(text, requiredPatterns)`: the patterns that do not match. -/
def missingTerms (rxTest : String → String → Bool) (text : String)
    (requiredPatterns : List String) : List String :=
  requiredPatterns.filter (fun p => !(rxTest p text))

/-- Source `getScopeText(rule)`: newline-join the non-empty matched `where`
sections (JS truthiness skips empty-string sections); if none matched, fall
back to `sections.FULL || text`. -/
def getScopeText (sections : List (String × String)) (text : String) (r : Rule) :
    String :=
  let chunks := r.whereSections.filterMap (fun sec =>
    match lookupField sections sec with
    | some s => if s = "" then none else some s
    | none => none)
  if chunks.isEmpty then
    match lookupField sections "FULL" with
    | some f => if f = "" then text else f
    | none => text
  else joinSep "\n" chunks

/-- The accumulators of one `analyze` run: the four completeness buckets and
the two per-category maps. -/
structure GapState where
  missingSections : List String
  weakSections : List String
  unclearSections : List String
  outdatedContent : List String
  gapCategories : List (String × List String)
  recommendations : List (String × List String)

/-- Whether the JS object `m` has key `k`. -/
def containsKey (m : List (String × List String)) (k : String) : Bool :=
  m.any (fun kv => kv.1 = k)

/-- JS `m[k].push(v)`: appends to the entry when the key exists, and throws
a `TypeError` (modelled as `.error ()`) when `m[k]` is `undefined` — there
is no membership guard in the source. -/
def pushCat (m : List (String × List String)) (k v : String) :
    Except Unit (List (String × List String)) :=
  match m with
  | [] => .error ()
  | (k', vs) :: rest =>
    if k' = k then .ok ((k', vs ++ [v]) :: rest)
    else
      match pushCat rest k v with
      | .error e => .error e
      | .ok rest' => .ok ((k', vs) :: rest')

/-- The successful result of `pushCat` (append at the first matching key). -/
def updateCat (m : List (String × List String)) (k v : String) :
    List (String × List String) :=
  match m with
  | [] => []
  | (k', vs) :: rest =>
    if k' = k then (k', vs ++ [v]) :: rest else (k', vs) :: updateCat rest k v

/-- The quality check of the per-rule loop: when `quality_requires` is
non-empty and some required pattern is missing from the scope, push one
Weak finding. -/
def applyQuality (rxTest : String → String → Bool) (scope : String) (r : Rule)
    (st : GapState) : Except Unit GapState :=
  if !r.quality_requires.isEmpty then
    let miss := missingTerms rxTest scope r.quality_requires
    if !miss.isEmpty then
      match pushCat st.gapCategories r.category
          ("Weak: " ++ r.name ++ " lacks measurable detail (" ++ joinSep ", " miss ++ ").") with
      | .error e => .error e
      | .ok gc =>
        match pushCat st.recommendations r.category
            ("Strengthen '" ++ r.name ++ "' by explicitly defining: " ++ joinSep ", " miss ++ ".") with
        | .error e => .error e
        | .ok rc =>
          .ok { st with
            weakSections := st.weakSections ++ [r.name ++ " lacks detail: " ++ joinSep ", " miss],
            gapCategories := gc, recommendations := rc }
    else .ok st
  else .ok st

/-- The ambiguity check of the per-rule loop: when some `unclear_triggers`
pattern matches the scope, push one Unclear finding listing the hits. -/
def applyUnclear (rxTest : String → String → Bool) (scope : String) (r : Rule)
    (st : GapState) : Except Unit GapState :=
  if !r.unclear_triggers.isEmpty && inText rxTest scope r.unclear_triggers then
    let hits := r.unclear_triggers.filter (fun p => rxTest p scope)
    match pushCat st.gapCategories r.category
        ("Unclear: " ++ r.name ++ " contains ambiguous phrasing (" ++ joinSep ", " hits ++ ").") with
    | .error e => .error e
    | .ok gc =>
      match pushCat st.recommendations r.category
          ("Clarify '" ++ r.name ++ "' by replacing ambiguous phrases with specific, testable requirements.") with
      | .error e => .error e
      | .ok rc =>
        .ok { st with
          unclearSections := st.unclearSections ++
            [r.name ++ " contains ambiguous phrasing (" ++ joinSep ", " hits ++ ")"],
          gapCategories := gc, recommendations := rc }
  else .ok st

/-- The obsolescence check: each matching `outdated_triggers` pattern emits
its own Outdated finding, deduplicated (by exact message text) only in the
`outdatedContent` bucket. -/
def processOutdated (rxTest : String → String → Bool) (scope : String) (r : Rule)
    (st : GapState) : List String → Except Unit GapState
  | [] => .ok st
  | p :: ps =>
    if rxTest p scope then
      let msg := "Outdated reference in '" ++ r.name ++ "': " ++ p
      let oc := if st.outdatedContent.contains msg then st.outdatedContent
                else st.outdatedContent ++ [msg]
      match pushCat st.gapCategories r.category ("Outdated: " ++ msg) with
      | .error e => .error e
      | .ok gc =>
        match pushCat st.recommendations r.category
            ("Update '" ++ r.name ++ "' to remove legacy references and align to current government enterprise standards.") with
        | .error e => .error e
        | .ok rc =>
          processOutdated rxTest scope r
            { st with outdatedContent := oc, gapCategories := gc, recommendations := rc } ps
    else processOutdated rxTest scope r st ps

/-- The body of `for (const r of filteredRules)` in `analyze`: presence
check; a required-but-absent rule records a Missing finding and skips all
other checks (`continue`); a present rule runs the quality, ambiguity and
obsolescence checks in order; an optional-and-absent rule does nothing. -/
def evalRuleStep (rxTest : String → String → Bool) (sections : List (String × String))
    (text : String) (st : GapState) (r : Rule) : Except Unit GapState :=
  let scope := getScopeText sections text r
  let present := inText rxTest scope r.presence
  if r.required && !present then
    match pushCat st.gapCategories r.category ("Missing: " ++ r.name) with
    | .error e => .error e
    | .ok gc =>
      match pushCat st.recommendations r.category
          ("Add a complete section for '" ++ r.name ++ "' aligned to PSD/government tender norms.") with
      | .error e => .error e
      | .ok rc =>
        .ok { st with
          missingSections := st.missingSections ++ [r.name],
          gapCategories := gc, recommendations := rc }
  else if present then
    match applyQuality rxTest scope r st with
    | .error e => .error e
    | .ok st1 =>
      match applyUnclear rxTest scope r st1 with
      | .error e => .error e
      | .ok st2 =>
        if !r.outdated_triggers.isEmpty then
          processOutdated rxTest scope r st2 r.outdated_triggers
        else .ok st2
  else .ok st

/-- The whole per-rule loop over the (filtered) rule list. -/
def evalRules (rxTest : String → String → Bool) (sections : List (String × String))
    (text : String) : GapState → List Rule → Except Unit GapState
  | st, [] => .ok st
  | st, r :: rest =>
    match evalRuleStep rxTest sections text st r with
    | .error e => .error e
    | .ok st' => evalRules rxTest sections text st' rest

/-- Whether evaluating rule `r` produces at least one finding (of any of the
four kinds). -/
def producesFinding (rxTest : String → String → Bool)
    (sections : List (String × String)) (text : String) (r : Rule) : Bool :=
  let scope := getScopeText sections text r
  let present := inText rxTest scope r.presence
  if r.required && !present then true
  else if present then
    (!r.quality_requires.isEmpty && !(missingTerms rxTest scope r.quality_requires).isEmpty)
    || (!r.unclear_triggers.isEmpty && inText rxTest scope r.unclear_triggers)
    || r.outdated_triggers.any (fun p => rxTest p scope)
  else false

/-- The accumulators as initialized at the top of `analyze`. -/
def initialGapState : GapState :=
  ⟨[], [], [], [], initCategories, initCategories⟩

/-- Source `computeScore()` of `analyze`: the first-match precedence ladder over
the four accumulated buckets (JS truthiness of `.length`). -/
def computeScore (missingSections outdatedContent unclearSections weakSections :
    List String) : Nat :=
  if missingSections.length ≠ 0 then 32
  else if outdatedContent.length ≠ 0 then 52
  else if unclearSections.length ≠ 0 then 62
  else if weakSections.length ≠ 0 then 72
  else 90

/-- The rule pre-filtering of `analyze`: with a provided category (JS
truthiness: the empty string counts as absent), trim it, check membership
in the nine gap categories case-insensitively; when valid, keep the rules
of that category (case-insensitive comparison), falling back to the full
rule set when nothing matches; when invalid, use the full rule set. -/
def filterRules (rules : List Rule) (providedCategory : Option String) : List Rule :=
  match providedCategory with
  | none => rules
  | some pc =>
    if pc = "" then rules
    else
      let normalizedCategory := jsTrim pc
      if (GAP_CATEGORIES.map jsToLower).contains (jsToLower normalizedCategory) then
        let filtered := rules.filter
          (fun r => jsToLower r.category = jsToLower normalizedCategory)
        if filtered.isEmpty then rules else filtered
      else rules

/-- C2: the overall completeness score is a first-match precedence ladder
over the four accumulated buckets: any Missing → 32; else any Outdated →
52; else any Unclear → 62; else any Weak → 72; else 90. -/
theorem C2_score_precedence_ladder
    (missingSections outdatedContent unclearSections weakSections : List String) :
    (missingSections ≠ [] →
      computeScore missingSections outdatedContent unclearSections weakSections = 32) ∧
    (missingSections = [] → outdatedContent ≠ [] →
      computeScore missingSections outdatedContent unclearSections weakSections = 52) ∧
    (missingSections = [] → outdatedContent = [] → unclearSections ≠ [] →
      computeScore missingSections outdatedContent unclearSections weakSections = 62) ∧
    (missingSections = [] → outdatedContent = [] → unclearSections = [] →
      weakSections ≠ [] →
      computeScore missingSections outdatedContent unclearSections weakSections = 72) ∧
    (missingSections = [] → outdatedContent = [] → unclearSections = [] →
      weakSections = [] →
      computeScore missingSections outdatedContent unclearSections weakSections = 90) := by
  refine ⟨?_, ?_, ?_, ?_, ?_⟩ <;>
    · intros
      simp_all [computeScore, List.length_eq_zero]

theorem C2_score_precedence_ladder_witness :
    computeScore ["m"] ["o"] ["u"] ["w"] = 32 ∧
    computeScore [] ["o"] ["u"] ["w"] = 52 ∧
    computeScore [] [] ["u"] ["w"] = 62 ∧
    computeScore [] [] [] ["w"] = 72 ∧
    computeScore [] [] [] [] = 90 :=
  ⟨(C2_score_precedence_ladder ["m"] ["o"] ["u"] ["w"]).1 (by simp),
   (C2_score_precedence_ladder [] ["o"] ["u"] ["w"]).2.1 rfl (by simp),
   (C2_score_precedence_ladder [] [] ["u"] ["w"]).2.2.1 rfl rfl (by simp),
   (C2_score_precedence_ladder [] [] [] ["w"]).2.2.2.1 rfl rfl rfl (by simp),
   (C2_score_precedence_ladder [] [] [] []).2.2.2.2 rfl rfl rfl rfl⟩

/-- C9: with no provided category the full rule set is used; an invalid
category (not one of the nine, case-insensitively) falls back to the full
rule set; a valid category matching no rule also falls back to the full rule
set; and a valid category matching at least one rule keeps exactly the rules
of that category (case-insensitive comparison).  `filterRules` is a total
function — it never errors. -/
theorem C9_category_filter (rules : List Rule) (pc : String) :
    (filterRules rules none = rules) ∧
    ((GAP_CATEGORIES.map jsToLower).contains (jsToLower (jsTrim pc)) = false →
      filterRules rules (some pc) = rules) ∧
    (rules.filter (fun r => jsToLower r.category = jsToLower (jsTrim pc)) = [] →
      filterRules rules (some pc) = rules) ∧
    ((GAP_CATEGORIES.map jsToLower).contains (jsToLower (jsTrim pc)) = true →
      rules.filter (fun r => jsToLower r.category = jsToLower (jsTrim pc)) ≠ [] →
      filterRules rules (some pc)
        = rules.filter (fun r => jsToLower r.category = jsToLower (jsTrim pc))) := by
  refine ⟨rfl, ?_, ?_, ?_⟩
  · intro hinvalid
    rw [filterRules]
    by_cases hpc : pc = ""
    · rw [if_pos hpc]
    · rw [if_neg hpc]
      simp only [hinvalid, Bool.false_eq_true, if_false]
  · intro hempty
    rw [filterRules]
    by_cases hpc : pc = ""
    · rw [if_pos hpc]
    · rw [if_neg hpc]
      by_cases hvalid :
          (GAP_CATEGORIES.map jsToLower).contains (jsToLower (jsTrim pc)) = true
      · simp only [hvalid, if_true]
        simp [hempty]
      · simp only [Bool.not_eq_true] at hvalid
        simp only [hvalid, Bool.false_eq_true, if_false]
  · intro hvalid hne
    rw [filterRules]
    by_cases hpc : pc = ""
    · subst hpc
      exact absurd hvalid (by decide)
    · rw [if_neg hpc]
      simp only [hvalid, if_true]
      rw [if_neg]
      simp only [List.isEmpty_iff]
      exact hne

theorem C9_category_filter_witness :
    filterRules [] none = [] ∧
    filterRules [⟨"r", "Technical", [], [], [], [], [], true⟩] (some "Works")
      = [⟨"r", "Technical", [], [], [], [], [], true⟩] ∧
    filterRules [⟨"r", "Technical", [], [], [], [], [], true⟩] (some "Financial")
      = [⟨"r", "Technical", [], [], [], [], [], true⟩] ∧
    filterRules [⟨"r", "Technical", [], [], [], [], [], true⟩,
                 ⟨"s", "Financial", [], [], [], [], [], false⟩] (some "technical")
      = List.filter (fun r => jsToLower r.category = jsToLower (jsTrim "technical"))
          [⟨"r", "Technical", [], [], [], [], [], true⟩,
           ⟨"s", "Financial", [], [], [], [], [], false⟩] :=
  ⟨(C9_category_filter [] "x").1,
   (C9_category_filter [⟨"r", "Technical", [], [], [], [], [], true⟩] "Works").2.1
     (by decide),
   (C9_category_filter [⟨"r", "Technical", [], [], [], [], [], true⟩] "Financial").2.2.1
     (by decide),
   (C9_category_filter [⟨"r", "Technical", [], [], [], [], [], true⟩,
      ⟨"s", "Financial", [], [], [], [], [], false⟩] "technical").2.2.2
     (by decide) (by decide)⟩

/-! Supporting lemmas for the accumulator maps. -/

theorem containsKey_iff (m : List (String × List String)) (k : String) :
    containsKey m k = true ↔ k ∈ m.map Prod.fst := by
  induction m with
  | nil => simp [containsKey]
  | cons kv rest ih =>
    simp only [containsKey, List.any_cons, Bool.or_eq_true, decide_eq_true_eq,
      List.map_cons, List.mem_cons]
    constructor
    · rintro (h | h)
      · exact Or.inl h.symm
      · exact Or.inr (ih.mp h)
    · rintro (h | h)
      · exact Or.inl h.symm
      · exact Or.inr (ih.mpr h)

theorem containsKey_congr (m₁ m₂ : List (String × List String)) (k : String)
    (h : m₁.map Prod.fst = m₂.map Prod.fst) :
    containsKey m₁ k = containsKey m₂ k := by
  rw [Bool.eq_iff_iff, containsKey_iff, containsKey_iff, h]

theorem updateCat_keys (m : List (String × List String)) (k v : String) :
    (updateCat m k v).map Prod.fst = m.map Prod.fst := by
  induction m with
  | nil => rfl
  | cons kv rest ih =>
    obtain ⟨k', vs⟩ := kv
    rw [updateCat]
    split
    · simp_all
    · simp [ih]

theorem pushCat_ok (m : List (String × List String)) (k v : String)
    (h : containsKey m k = true) : pushCat m k v = .ok (updateCat m k v) := by
  induction m with
  | nil => simp [containsKey] at h
  | cons kv rest ih =>
    obtain ⟨k', vs⟩ := kv
    by_cases hk : k' = k
    · simp [pushCat, updateCat, hk]
    · simp only [containsKey, List.any_cons, Bool.or_eq_true, decide_eq_true_eq] at h
      rcases h with h | h
      · exact absurd h hk
      · rw [pushCat, updateCat, if_neg hk, if_neg hk, ih (by simp [containsKey, h])]

theorem pushCat_error (m : List (String × List String)) (k v : String)
    (h : containsKey m k = false) : pushCat m k v = .error () := by
  induction m with
  | nil => rfl
  | cons kv rest ih =>
    obtain ⟨k', vs⟩ := kv
    simp only [containsKey, List.any_cons, Bool.or_eq_false_iff,
      decide_eq_false_iff_not] at h
    rw [pushCat, if_neg h.1, ih (by simp [containsKey, h.2])]

/-- C3: for a required rule whose presence patterns all fail on its scope
text, the per-rule evaluation adds exactly one Missing finding (the rule's
name in `missingSections`, `"Missing: <name>"` in its category bucket, one
recommendation) and short-circuits: the Weak, Unclear and Outdated buckets
are left untouched no matter what the rule's other pattern lists would
match. -/
theorem C3_required_missing_short_circuit (rxTest : String → String → Bool)
    (sections : List (String × String)) (text : String) (st : GapState) (r : Rule)
    (hreq : r.required = true)
    (habsent : inText rxTest (getScopeText sections text r) r.presence = false)
    (hg : containsKey st.gapCategories r.category = true)
    (hr : containsKey st.recommendations r.category = true) :
    evalRuleStep rxTest sections text st r = .ok { st with
      missingSections := st.missingSections ++ [r.name],
      gapCategories := updateCat st.gapCategories r.category ("Missing: " ++ r.name),
      recommendations := updateCat st.recommendations r.category
        ("Add a complete section for '" ++ r.name
          ++ "' aligned to PSD/government tender norms.") } := by
  rw [evalRuleStep]
  simp only [habsent, hreq, Bool.not_false, Bool.and_true, if_true]
  rw [pushCat_ok _ _ _ hg, pushCat_ok _ _ _ hr]

theorem C3_required_missing_short_circuit_witness :
    evalRuleStep (fun _ _ => false) [] "doc" initialGapState
        ⟨"Dispute resolution", "Administrative", ["FULL"], ["Dispute Resolution"],
         ["courts"], ["sole discretion"], ["legacy"], true⟩
      = .ok { initialGapState with
          missingSections := initialGapState.missingSections ++ ["Dispute resolution"],
          gapCategories := updateCat initialGapState.gapCategories "Administrative"
            ("Missing: " ++ "Dispute resolution"),
          recommendations := updateCat initialGapState.recommendations "Administrative"
            ("Add a complete section for '" ++ "Dispute resolution"
              ++ "' aligned to PSD/government tender norms.") } :=
  C3_required_missing_short_circuit (fun _ _ => false) [] "doc" initialGapState
    ⟨"Dispute resolution", "Administrative", ["FULL"], ["Dispute Resolution"],
     ["courts"], ["sole discretion"], ["legacy"], true⟩
    rfl rfl (by decide) (by decide)

/-! Per-stage behaviour of the rule evaluation, split by whether the rule's
category is a key of the accumulators. -/

theorem applyQuality_valid (rxTest : String → String → Bool) (scope : String)
    (r : Rule) (st : GapState)
    (hg : containsKey st.gapCategories r.category = true)
    (hr : containsKey st.recommendations r.category = true) :
    ∃ st', applyQuality rxTest scope r st = .ok st' ∧
      st'.gapCategories.map Prod.fst = st.gapCategories.map Prod.fst ∧
      st'.recommendations.map Prod.fst = st.recommendations.map Prod.fst := by
  rw [applyQuality]
  by_cases h1 : r.quality_requires.isEmpty
  · simp only [h1, Bool.not_true, Bool.false_eq_true, if_false]
    exact ⟨st, rfl, rfl, rfl⟩
  · simp only [Bool.not_eq_true'] at h1
    simp only [h1, Bool.not_false, if_true]
    by_cases h2 : (missingTerms rxTest scope r.quality_requires).isEmpty
    · simp only [h2, Bool.not_true, Bool.false_eq_true, if_false]
      exact ⟨st, rfl, rfl, rfl⟩
    · simp only [Bool.not_eq_true'] at h2
      simp only [h2, Bool.not_false, if_true]
      rw [pushCat_ok _ _ _ hg, pushCat_ok _ _ _ hr]
      exact ⟨_, rfl, by simp [updateCat_keys], by simp [updateCat_keys]⟩

theorem applyQuality_invalid (rxTest : String → String → Bool) (scope : String)
    (r : Rule) (st : GapState)
    (hg : containsKey st.gapCategories r.category = false) :
    applyQuality rxTest scope r st =
      if !r.quality_requires.isEmpty
          && !(missingTerms rxTest scope r.quality_requires).isEmpty then
        .error ()
      else .ok st := by
  rw [applyQuality]
  by_cases h1 : r.quality_requires.isEmpty
  · simp [h1]
  · simp only [Bool.not_eq_true'] at h1
    by_cases h2 : (missingTerms rxTest scope r.quality_requires).isEmpty
    · simp [h1, h2]
    · simp only [Bool.not_eq_true'] at h2
      simp only [h1, h2, Bool.not_false, if_true, Bool.and_self]
      rw [pushCat_error _ _ _ hg]

theorem applyUnclear_valid (rxTest : String → String → Bool) (scope : String)
    (r : Rule) (st : GapState)
    (hg : containsKey st.gapCategories r.category = true)
    (hr : containsKey st.recommendations r.category = true) :
    ∃ st', applyUnclear rxTest scope r st = .ok st' ∧
      st'.gapCategories.map Prod.fst = st.gapCategories.map Prod.fst ∧
      st'.recommendations.map Prod.fst = st.recommendations.map Prod.fst := by
  rw [applyUnclear]
  by_cases h1 : (!r.unclear_triggers.isEmpty && inText rxTest scope r.unclear_triggers) = true
  · simp only [h1, if_true]
    rw [pushCat_ok _ _ _ hg, pushCat_ok _ _ _ hr]
    exact ⟨_, rfl, by simp [updateCat_keys], by simp [updateCat_keys]⟩
  · simp only [Bool.not_eq_true] at h1
    simp only [h1, Bool.false_eq_true, if_false]
    exact ⟨st, rfl, rfl, rfl⟩

theorem applyUnclear_invalid (rxTest : String → String → Bool) (scope : String)
    (r : Rule) (st : GapState)
    (hg : containsKey st.gapCategories r.category = false) :
    applyUnclear rxTest scope r st =
      if !r.unclear_triggers.isEmpty && inText rxTest scope r.unclear_triggers then
        .error ()
      else .ok st := by
  rw [applyUnclear]
  by_cases h1 : (!r.unclear_triggers.isEmpty && inText rxTest scope r.unclear_triggers) = true
  · simp only [h1, if_true]
    rw [pushCat_error _ _ _ hg]
  · simp only [Bool.not_eq_true] at h1
    simp only [h1, Bool.false_eq_true, if_false]

theorem processOutdated_valid (rxTest : String → String → Bool) (scope : String)
    (r : Rule) (ts : List String) : ∀ (st : GapState),
    containsKey st.gapCategories r.category = true →
    containsKey st.recommendations r.category = true →
    ∃ st', processOutdated rxTest scope r st ts = .ok st' ∧
      st'.gapCategories.map Prod.fst = st.gapCategories.map Prod.fst ∧
      st'.recommendations.map Prod.fst = st.recommendations.map Prod.fst := by
  induction ts with
  | nil => exact fun st _ _ => ⟨st, rfl, rfl, rfl⟩
  | cons p ps ih =>
    intro st hg hr
    rw [processOutdated]
    by_cases hp : rxTest p scope = true
    · simp only [hp, if_true]
      rw [pushCat_ok _ _ _ hg, pushCat_ok _ _ _ hr]
      obtain ⟨st', hst', hk1, hk2⟩ :=
        ih { st with
          outdatedContent :=
            if st.outdatedContent.contains
                ("Outdated reference in '" ++ r.name ++ "': " ++ p)
            then st.outdatedContent
            else st.outdatedContent ++ ["Outdated reference in '" ++ r.name ++ "': " ++ p],
          gapCategories := updateCat st.gapCategories r.category
            ("Outdated: " ++ ("Outdated reference in '" ++ r.name ++ "': " ++ p)),
          recommendations := updateCat st.recommendations r.category
            ("Update '" ++ r.name
              ++ "' to remove legacy references and align to current government enterprise standards.") }
          ((containsKey_congr
              (updateCat st.gapCategories r.category
                ("Outdated: " ++ ("Outdated reference in '" ++ r.name ++ "': " ++ p)))
              st.gapCategories r.category (updateCat_keys _ _ _)).trans hg)
          ((containsKey_congr
              (updateCat st.recommendations r.category
                ("Update '" ++ r.name
                  ++ "' to remove legacy references and align to current government enterprise standards."))
              st.recommendations r.category (updateCat_keys _ _ _)).trans hr)
      exact ⟨st', hst', hk1.trans (updateCat_keys _ _ _), hk2.trans (updateCat_keys _ _ _)⟩
    · simp only [Bool.not_eq_true] at hp
      simp only [hp, Bool.false_eq_true, if_false]
      exact ih st hg hr

theorem processOutdated_invalid (rxTest : String → String → Bool) (scope : String)
    (r : Rule) (ts : List String) : ∀ (st : GapState),
    containsKey st.gapCategories r.category = false →
    processOutdated rxTest scope r st ts =
      (if ts.any (fun p => rxTest p scope) then .error () else .ok st) := by
  induction ts with
  | nil => intro st _; simp [processOutdated]
  | cons p ps ih =>
    intro st hg
    rw [processOutdated]
    by_cases hp : rxTest p scope = true
    · simp only [hp, if_true, List.any_cons, Bool.true_or]
      rw [pushCat_error _ _ _ hg]
    · simp only [Bool.not_eq_true] at hp
      simp only [hp, Bool.false_eq_true, if_false, List.any_cons, Bool.false_or]
      exact ih st hg

/-- A rule whose category is a key of both accumulators never aborts the
analysis, and evaluation preserves the accumulators' key sets. -/
theorem evalRuleStep_valid (rxTest : String → String → Bool)
    (sections : List (String × String)) (text : String) (st : GapState) (r : Rule)
    (hg : containsKey st.gapCategories r.category = true)
    (hr : containsKey st.recommendations r.category = true) :
    ∃ st', evalRuleStep rxTest sections text st r = .ok st' ∧
      st'.gapCategories.map Prod.fst = st.gapCategories.map Prod.fst ∧
      st'.recommendations.map Prod.fst = st.recommendations.map Prod.fst := by
  simp only [evalRuleStep]
  by_cases hc1 :
      (r.required && !inText rxTest (getScopeText sections text r) r.presence) = true
  · simp only [hc1, if_true]
    rw [pushCat_ok _ _ _ hg, pushCat_ok _ _ _ hr]
    exact ⟨_, rfl, by simp [updateCat_keys], by simp [updateCat_keys]⟩
  · simp only [Bool.not_eq_true] at hc1
    simp only [hc1, Bool.false_eq_true, if_false]
    by_cases hp : inText rxTest (getScopeText sections text r) r.presence = true
    · simp only [hp, if_true]
      obtain ⟨st1, h1, k11, k12⟩ :=
        applyQuality_valid rxTest (getScopeText sections text r) r st hg hr
      simp only [h1]
      obtain ⟨st2, h2, k21, k22⟩ :=
        applyUnclear_valid rxTest (getScopeText sections text r) r st1
          ((containsKey_congr _ _ _ k11).trans hg)
          ((containsKey_congr _ _ _ k12).trans hr)
      simp only [h2]
      by_cases ht : r.outdated_triggers.isEmpty
      · simp only [ht, Bool.not_true, Bool.false_eq_true, if_false]
        exact ⟨st2, rfl, k21.trans k11, k22.trans k12⟩
      · simp only [Bool.not_eq_true'] at ht
        simp only [ht, Bool.not_false, if_true]
        obtain ⟨st3, h3, k31, k32⟩ :=
          processOutdated_valid rxTest (getScopeText sections text r) r r.outdated_triggers st2
            ((containsKey_congr _ _ _ k21).trans ((containsKey_congr _ _ _ k11).trans hg))
            ((containsKey_congr _ _ _ k22).trans ((containsKey_congr _ _ _ k12).trans hr))
        exact ⟨st3, h3, (k31.trans k21).trans k11, (k32.trans k22).trans k12⟩
    · simp only [Bool.not_eq_true] at hp
      simp only [hp, Bool.false_eq_true, if_false]
      exact ⟨st, rfl, rfl, rfl⟩

/-- A rule whose category is not a key of the accumulators aborts the
analysis with a `TypeError` exactly when the rule produces a finding, and
otherwise leaves the state unchanged. -/
theorem evalRuleStep_invalid (rxTest : String → String → Bool)
    (sections : List (String × String)) (text : String) (st : GapState) (r : Rule)
    (hg : containsKey st.gapCategories r.category = false) :
    evalRuleStep rxTest sections text st r =
      if producesFinding rxTest sections text r then .error () else .ok st := by
  simp only [evalRuleStep, producesFinding]
  by_cases hc1 :
      (r.required && !inText rxTest (getScopeText sections text r) r.presence) = true
  · simp only [hc1, if_true]
    rw [pushCat_error _ _ _ hg]
  · simp only [Bool.not_eq_true] at hc1
    simp only [hc1, Bool.false_eq_true, if_false]
    by_cases hp : inText rxTest (getScopeText sections text r) r.presence = true
    · simp only [hp, if_true]
      rw [applyQuality_invalid rxTest _ r st hg]
      by_cases hq : (!r.quality_requires.isEmpty
          && !(missingTerms rxTest (getScopeText sections text r) r.quality_requires).isEmpty) = true
      · simp only [hq, if_true, Bool.true_or]
      · simp only [Bool.not_eq_true] at hq
        simp only [hq, Bool.false_eq_true, if_false, Bool.false_or]
        rw [applyUnclear_invalid rxTest _ r st hg]
        by_cases hu : (!r.unclear_triggers.isEmpty
            && inText rxTest (getScopeText sections text r) r.unclear_triggers) = true
        · simp only [hu, if_true, Bool.true_or]
        · simp only [Bool.not_eq_true] at hu
          simp only [hu, Bool.false_eq_true, if_false, Bool.false_or]
          by_cases ht : r.outdated_triggers.isEmpty
          · have hnil : r.outdated_triggers = [] := List.isEmpty_iff.mp ht
            simp [hnil, ht]
          · simp only [Bool.not_eq_true'] at ht
            simp only [ht, Bool.not_false, if_true]
            rw [processOutdated_invalid rxTest _ r r.outdated_triggers st hg]
    · simp only [Bool.not_eq_true] at hp
      simp only [hp, Bool.false_eq_true, if_false]

theorem evalRules_error_iff (rxTest : String → String → Bool)
    (sections : List (String × String)) (text : String) :
    ∀ (rules : List Rule) (st : GapState),
    st.gapCategories.map Prod.fst = GAP_CATEGORIES →
    st.recommendations.map Prod.fst = GAP_CATEGORIES →
    (evalRules rxTest sections text st rules = .error () ↔
      ∃ r ∈ rules, r.category ∉ GAP_CATEGORIES ∧
        producesFinding rxTest sections text r = true) := by
  intro rules
  induction rules with
  | nil =>
    intro st _ _
    simp [evalRules]
  | cons r rest ih =>
    intro st hkg hkr
    rw [evalRules]
    by_cases hc : r.category ∈ GAP_CATEGORIES
    · have hg : containsKey st.gapCategories r.category = true :=
        (containsKey_iff _ _).mpr (by rw [hkg]; exact hc)
      have hr : containsKey st.recommendations r.category = true :=
        (containsKey_iff _ _).mpr (by rw [hkr]; exact hc)
      obtain ⟨st', hst', k1, k2⟩ := evalRuleStep_valid rxTest sections text st r hg hr
      simp only [hst']
      rw [ih st' (k1.trans hkg) (k2.trans hkr)]
      constructor
      · rintro ⟨r', hmem, hcat, hpf⟩
        exact ⟨r', List.mem_cons_of_mem _ hmem, hcat, hpf⟩
      · rintro ⟨r', hmem, hcat, hpf⟩
        rcases List.mem_cons.mp hmem with heq | hmem'
        · subst heq
          exact absurd hc hcat
        · exact ⟨r', hmem', hcat, hpf⟩
    · have hg : containsKey st.gapCategories r.category = false := by
        cases hb : containsKey st.gapCategories r.category with
        | false => rfl
        | true => exact absurd (by rw [← hkg]; exact (containsKey_iff _ _).mp hb) hc
      rw [evalRuleStep_invalid rxTest sections text st r hg]
      by_cases hpf : producesFinding rxTest sections text r = true
      · simp only [hpf, if_true]
        constructor
        · intro _
          exact ⟨r, List.mem_cons_self _ _, hc, hpf⟩
        · intro _
          trivial
      · simp only [Bool.not_eq_true] at hpf
        simp only [hpf, Bool.false_eq_true, if_false]
        rw [ih st hkg hkr]
        constructor
        · rintro ⟨r', hmem, hcat, hpf'⟩
          exact ⟨r', List.mem_cons_of_mem _ hmem, hcat, hpf'⟩
        · rintro ⟨r', hmem, hcat, hpf'⟩
          rcases List.mem_cons.mp hmem with heq | hmem'
          · subst heq
            exact absurd hpf' (by simp [hpf])
          · exact ⟨r', hmem', hcat, hpf'⟩

theorem initCategories_keys : initCategories.map Prod.fst = GAP_CATEGORIES := by
  simp only [initCategories, List.map_map]
  have hcomp : (Prod.fst ∘ fun k : String => (k, ([] : List String))) = id := rfl
  rw [hcomp, List.map_id]

/-- C10: starting from the accumulators as `analyze` initializes them
(exactly the nine `GAP_CATEGORIES` keys), the per-rule loop aborts with a
thrown `TypeError` (from pushing into `gapCategories[r.category]` with no
membership guard) exactly when some evaluated rule whose category is
outside the nine produces a finding; in particular the error branch is
unreachable when every rule's category is one of the nine. -/
theorem C10_category_typeerror_reachability (rxTest : String → String → Bool)
    (sections : List (String × String)) (text : String) (rules : List Rule) :
    evalRules rxTest sections text initialGapState rules = .error () ↔
      ∃ r ∈ rules, r.category ∉ GAP_CATEGORIES ∧
        producesFinding rxTest sections text r = true :=
  evalRules_error_iff rxTest sections text rules initialGapState
    initCategories_keys initCategories_keys

end TenderIntake
